import Mathlib

/-!
Shallow embedding of `src/db.cc`, a minimal iterator-model query engine.

The embedding follows the source text, including its defects:

* `std::unique_ptr<T>` members are modelled as `Option`-like values; calling a
  method through a null pointer is modelled as the error `Err.nullDeref`.
* The base `struct Expression` declares `virtual Value eval(const Row&)` with
  no definition anywhere; invoking it is modelled as `Err.undefinedVirtual`.
* `std::map::at` on a missing key throws `std::out_of_range`, modelled as
  `Err.outOfRange`; `std::get<bool>` on a differently-tagged variant throws
  `std::bad_variant_access`, modelled as `Err.badVariantAccess`.
* Methods that can loop forever (`Operator::open`, `Operator::close`, the
  retry loop in `Filter::next`) are modelled with an explicit fuel parameter;
  a result of `none` means the computation did not finish within the given
  fuel (in particular, unconditional divergence shows up as `none` for every
  fuel).
* Operators have no mutable members besides their child subtrees, so `next`
  is modelled as a function from the operator value to a result together with
  the (possibly updated) operator value.
-/

/-- Failure modes that actually occur in `src/db.cc`: dereferencing a null
`unique_ptr` (undefined behaviour in C++), calling the base
`Expression::eval`/`return_type` which are declared but never defined,
`std::map::at` on an absent key, and `std::get` on the wrong variant
alternative.  The source declares no protocol-state error of any kind (no
`PreconditionViolation`). -/
inductive Err where
  | nullDeref
  | undefinedVirtual
  | outOfRange
  | badVariantAccess
deriving DecidableEq

/-- The C++ `struct Value` wraps `std::variant<int64_t, string, bool>`; one
constructor per variant alternative. -/
inductive Value where
  | int (i : Int)
  | str (s : String)
  | bool (b : Bool)
deriving DecidableEq

/-- Content equality of `std::variant`: equal alternative index and equal
payload; mismatched alternatives compare unequal (line
`left_result.value == right_result.value` in `EqualExpr::eval`). -/
def Value.variantEq : Value → Value → Bool
  | .int a, .int b => a == b
  | .str a, .str b => a == b
  | .bool a, .bool b => a == b
  | _, _ => false

/-- The C++ `Value::get_boolean` is `std::get<bool>(value)`: it returns the
payload when the active alternative is `bool` and otherwise throws
`std::bad_variant_access`. -/
def Value.get_boolean : Value → Except Err Bool
  | .bool b => .ok b
  | _ => .error .badVariantAccess

/-- The C++ `struct Row` holds `map<string, Value> payload`; modelled as an
association list with unique keys. -/
structure Row where
  payload : List (String × Value)
deriving DecidableEq

/-- `std::map::operator[]` followed by assignment (`new_row.payload[name] =
result` in `Project::next`): replace the value when the key is present,
otherwise insert the key. -/
def listInsert : List (String × Value) → String → Value → List (String × Value)
  | [], k, v => [(k, v)]
  | (k', v') :: rest, k, v =>
    if k' = k then (k', v) :: rest else (k', v') :: listInsert rest k v

/-- Insert-or-assign on a `Row`, as performed by `Project::next`. -/
def Row.insert (r : Row) (k : String) (v : Value) : Row :=
  ⟨listInsert r.payload k v⟩

/-- The C++ `row.payload.at(name)` (in `Variable::eval`): the mapped value,
or `std::out_of_range` when the key is absent. -/
def Row.atKey (r : Row) (name : String) : Except Err Value :=
  match r.payload.lookup name with
  | some v => .ok v
  | none => .error .outOfRange

/-- A `unique_ptr<EqualExpr>`: either null, or it owns an `EqualExpr` object
whose two members `left_child` and `right_child` are again
`unique_ptr<EqualExpr>` — in the source both child slots of `EqualExpr` are
typed `unique_ptr<EqualExpr>`, not `unique_ptr<Expression>`. -/
inductive EqualPtr where
  | null
  | node (left_child right_child : EqualPtr)
deriving DecidableEq

/-- Evaluation through a `unique_ptr<EqualExpr>` (`ptr->eval(row)`): a null
pointer dereference faults; otherwise the body of `EqualExpr::eval` runs:
evaluate `left_child->eval(row)`, then `right_child->eval(row)`, then wrap
the variant content comparison in a boolean `Value`. -/
def EqualPtr.evalDeref : EqualPtr → Row → Except Err Value
  | .null, _ => .error .nullDeref
  | .node l r, row =>
    match l.evalDeref row with
    | .error e => .error e
    | .ok left_result =>
      match r.evalDeref row with
      | .error e => .error e
      | .ok right_result => .ok (.bool (Value.variantEq left_result right_result))

/-- The method `EqualExpr::eval` of an `EqualExpr` object with the given two
child pointers: exactly the non-null branch of `EqualPtr.evalDeref`. -/
def EqualExpr.eval (left_child right_child : EqualPtr) (row : Row) : Except Err Value :=
  EqualPtr.evalDeref (.node left_child right_child) row

/-- The dynamic types an `Expression` object can have in `src/db.cc`: the
base `Expression` itself (its virtual `eval` is declared but never defined),
`Variable` (holding a column name), or `EqualExpr` (holding two
`unique_ptr<EqualExpr>` children). -/
inductive Expression where
  | base
  | var (name : String)
  | equal (left_child right_child : EqualPtr)
deriving DecidableEq

/-- Virtual dispatch of `eval` on an `Expression` object: the base class body
has no definition (the program cannot even link a call to it); `Variable`
looks the name up in the row's payload with `.at`; `EqualExpr` runs
`EqualExpr::eval`. -/
def Expression.eval : Expression → Row → Except Err Value
  | .base, _ => .error .undefinedVirtual
  | .var name, row => row.atKey name
  | .equal l r, row => EqualExpr.eval l r row

/-- Copy-constructing a base `Expression` from any expression object slices
it down to the (data-free) base class, as happens to every element stored in
`Project`'s `vector<tuple<string, Expression>>`. -/
def Expression.sliceToBase (_e : Expression) : Expression := .base

/-- Dereferencing a `unique_ptr<EqualExpr>` and viewing the pointee as an
`Expression` object: null pointers have no pointee; a non-null pointer's
pointee is (by the member's type) an `EqualExpr` object. -/
def EqualPtr.derefAsExpression : EqualPtr → Option Expression
  | .null => none
  | .node l r => some (.equal l r)

/-- The child pointers of an expression node: only `EqualExpr` has children
(`left_child` and `right_child`, in that order); `Variable` and the base
class are leaves. -/
def Expression.equalChildren : Expression → List EqualPtr
  | .equal l r => [l, r]
  | _ => []

/-- Whether the dynamic type of an expression object is `EqualExpr`. -/
def Expression.isEqualNode : Expression → Bool
  | .equal _ _ => true
  | _ => false

/-- Whether the dynamic type of an expression object is `Variable`. -/
def Expression.isVariableNode : Expression → Bool
  | .var _ => true
  | _ => false

/-- Operator-tree values.  Each constructor carries exactly the members of
the corresponding C++ struct: `Scan` stores a (never used)
`unique_ptr<Operator> child`; `Filter` stores `unique_ptr<Expression> pred`
and `unique_ptr<Operator> child`; `Project` stores
`vector<tuple<string, Expression>> projects` and `unique_ptr<Operator>
child`.  `none` in a child or predicate slot is a null pointer. -/
inductive Op where
  | scan (child : Option Op)
  | filter (pred : Option Expression) (child : Option Op)
  | project (projects : List (String × Expression)) (child : Option Op)

/-- The constructor `Scan::Scan(unique_ptr<Operator> _child)`: it moves the
argument into the `child` member (which `next` then never reads). -/
def Scan.make (child : Option Op) : Op := .scan child

/-- The constructor `Filter::Filter(unique_ptr<Expression> _pred,
unique_ptr<Operator> child)`: its initializer list is `pred(move(_pred))`
only — the `child` parameter is accepted and then discarded, so the `child`
member stays default-initialized, i.e. a null `unique_ptr`. -/
def Filter.make (pred : Option Expression) (_child : Option Op) : Op :=
  .filter pred none

/-- The constructor `Project::Project(...)`: both members are initialized
from the arguments.  The element type of `projects` is
`tuple<string, Expression>`, which stores the base class `Expression` by
value, so whatever expression the caller supplies is sliced to the base when
the tuple is formed. -/
def Project.make (projects : List (String × Expression)) (child : Option Op) : Op :=
  .project (projects.map (fun p => (p.1, Expression.sliceToBase p.2))) child

/-- `Operator::children()`: the base implementation returns `{}` and is not
overridden by `Scan` (whose stored child is therefore invisible to
`open`/`close`); `Filter::children` and `Project::children` return the
one-element vector `{child.get()}`, whose element may be a null pointer. -/
def Op.childrenPtrs : Op → List (Option Op)
  | .scan _ => []
  | .filter _ child => [child]
  | .project _ child => [child]

/-- The call `pred->eval(row).get_boolean()` in `Filter::next`: dereferencing
the (possibly null) `pred` pointer, evaluating, then `get_boolean`. -/
def evalPredicate : Option Expression → Row → Except Err Bool
  | none, _ => .error .nullDeref
  | some p, row =>
    match p.eval row with
    | .error e => .error e
    | .ok v => v.get_boolean

/-- The loop body of `Project::next`: for each `(name, expr)` pair in
declaration order, evaluate `expr.eval(row)` and store the result under
`name` in the accumulating fresh row. -/
def projectLoop (row : Row) : List (String × Expression) → Row → Except Err Row
  | [], acc => .ok acc
  | (name, expr) :: rest, acc =>
    match expr.eval row with
    | .error e => .error e
    | .ok result => projectLoop row rest (acc.insert name result)

/-- `Project::next`'s row-transformation step: start from `Row{}` and run
the projection loop. -/
def projectRow (projects : List (String × Expression)) (row : Row) : Except Err Row :=
  projectLoop row projects ⟨[]⟩

/-- One `next()` call, with fuel bounding the number of nested or repeated
pulls (`none` = the call did not return within the fuel).  `Scan::next`
returns the empty optional unconditionally.  `Filter::next` dereferences its
`child` member (null for every object `Filter::Filter` ever builds), and on a
pulled row evaluates the predicate: a `true` result returns the row, a
`false` result runs the `for(;;)` loop again.  `Project::next` pulls one row
from `child`, propagates exhaustion, and otherwise transforms the row.  The
second component of a successful result is the operator value after the call
(the source mutates no member other than, transitively, child state). -/
def nextFuel : Nat → Op → Option (Except Err (Option Row × Op))
  | 0, _ => none
  | _ + 1, .scan child => some (.ok (none, .scan child))
  | _ + 1, .filter _pred none => some (.error .nullDeref)
  | f + 1, .filter pred (some child) =>
    match nextFuel f child with
    | none => none
    | some (.error e) => some (.error e)
    | some (.ok (none, child')) => some (.ok (none, .filter pred (some child')))
    | some (.ok (some row, child')) =>
      match evalPredicate pred row with
      | .error e => some (.error e)
      | .ok true => some (.ok (some row, .filter pred (some child')))
      | .ok false => nextFuel f (.filter pred (some child'))
  | _ + 1, .project _projects none => some (.error .nullDeref)
  | f + 1, .project projects (some child) =>
    match nextFuel f child with
    | none => none
    | some (.error e) => some (.error e)
    | some (.ok (none, child')) => some (.ok (none, .project projects (some child')))
    | some (.ok (some row, child')) =>
      match projectRow projects row with
      | .error e => some (.error e)
      | .ok newRow => some (.ok (some newRow, .project projects (some child')))

mutual

/-- One `open()` call with fuel (`none` = did not return within the fuel).
The body of `Operator::open` is: loop over `children()` calling
`child->open()` on each, and then call `open()` — itself — again.  There is
no separate self-initialization step; after the children loop the method
unconditionally recurses into itself. -/
def openFuel : Nat → Op → Option (Except Err Unit)
  | 0, _ => none
  | f + 1, op =>
    match openChildren f op.childrenPtrs with
    | none => none
    | some (.error e) => some (.error e)
    | some (.ok _) => openFuel f op
termination_by f _ => (f, 0)

/-- The `for (auto child : children())` loop of `Operator::open`: each
element is a raw pointer that may be null (dereference fault), otherwise the
child is opened; the loop then continues with the rest. -/
def openChildren : Nat → List (Option Op) → Option (Except Err Unit)
  | _, [] => some (.ok ())
  | _, none :: _ => some (.error .nullDeref)
  | f, some c :: rest =>
    match openFuel f c with
    | none => none
    | some (.error e) => some (.error e)
    | some (.ok _) => openChildren f rest
termination_by f l => (f, l.length + 1)

end

mutual

/-- One `close()` call with fuel.  `Operator::close` has the same shape as
`Operator::open`: loop over `children()` calling `child->close()`, then call
`close()` — itself — again; there is no distinct self-teardown step, and the
self-call comes after the children, not before them. -/
def closeFuel : Nat → Op → Option (Except Err Unit)
  | 0, _ => none
  | f + 1, op =>
    match closeChildren f op.childrenPtrs with
    | none => none
    | some (.error e) => some (.error e)
    | some (.ok _) => closeFuel f op
termination_by f _ => (f, 0)

/-- The `for (auto child : children())` loop of `Operator::close`. -/
def closeChildren : Nat → List (Option Op) → Option (Except Err Unit)
  | _, [] => some (.ok ())
  | _, none :: _ => some (.error .nullDeref)
  | f, some c :: rest =>
    match closeFuel f c with
    | none => none
    | some (.error e) => some (.error e)
    | some (.ok _) => closeChildren f rest
termination_by f l => (f, l.length + 1)

end

/-- Helper: evaluation through any `unique_ptr<EqualExpr>` always fails with
a null-pointer dereference.  Every child slot of an `EqualExpr` is again a
`unique_ptr<EqualExpr>`, so a finite tree necessarily has a null pointer on
its leftmost spine, and the fault propagates up unchanged. -/
theorem evalDeref_always_nullDeref (p : EqualPtr) (row : Row) :
    EqualPtr.evalDeref p row = .error .nullDeref := by
  induction p with
  | null => rfl
  | node l r ihl ihr => simp [EqualPtr.evalDeref, ihl]

/-- C1: the claim says `Filter::next` repeatedly pulls rows from the child
operator supplied at construction.  In the source, `Filter`'s constructor
never stores its `child` argument, so the `child` member is a null
`unique_ptr` and every `next` call on every constructed `Filter` — whatever
predicate and whatever child were supplied — immediately dereferences a null
pointer instead of pulling from the supplied child; no row is ever
produced. -/
theorem filter_next_never_pulls_from_supplied_child
    (f : Nat) (pred : Option Expression) (child : Option Op) :
    nextFuel (f + 1) (Filter.make pred child) = some (.error .nullDeref) := rfl

/-- C2: the claim says `open()` opens all children and then performs the
node's own initialization, terminating on every finite tree.  In the source,
`Operator::open` unconditionally calls `open()` on itself after the children
loop, so no call ever completes successfully: for every fuel bound it either
fails to return (fuel runs out on the unbounded self-recursion) or faults on
a null child pointer in a `children()` vector. -/
theorem open_never_completes (f : Nat) (op : Op) :
    openFuel f op = none ∨ ∃ e, openFuel f op = some (.error e) := by
  induction f generalizing op with
  | zero => exact Or.inl (by simp [openFuel])
  | succ f ih =>
    rcases hch : openChildren f op.childrenPtrs with _ | r
    · exact Or.inl (by simp [openFuel, hch])
    · rcases r with e | u
      · exact Or.inr ⟨e, by simp [openFuel, hch]⟩
      · have hstep : openFuel (f + 1) op = openFuel f op := by simp [openFuel, hch]
        rw [hstep]
        exact ih op

/-- C3: the claim says `close()` performs the node's own teardown and then
recursively closes the children, terminating on every finite tree.  In the
source, `Operator::close` first closes the children and then unconditionally
calls `close()` on itself, so — exactly as with `open` — no call ever
completes successfully for any fuel bound. -/
theorem close_never_completes (f : Nat) (op : Op) :
    closeFuel f op = none ∨ ∃ e, closeFuel f op = some (.error e) := by
  induction f generalizing op with
  | zero => exact Or.inl (by simp [closeFuel])
  | succ f ih =>
    rcases hch : closeChildren f op.childrenPtrs with _ | r
    · exact Or.inl (by simp [closeFuel, hch])
    · rcases r with e | u
      · exact Or.inr ⟨e, by simp [closeFuel, hch]⟩
      · have hstep : closeFuel (f + 1) op = closeFuel f op := by simp [closeFuel, hch]
        rw [hstep]
        exact ih op

/-- C4: the claim says `next` called before `open` fails with a
PreconditionViolation.  The source tracks no open/closed state and declares
no PreconditionViolation error at all: `next` on a freshly constructed,
never-opened `Scan` returns perfectly normally (with the exhausted
signal). -/
theorem next_before_open_returns_normally :
    nextFuel 1 (Scan.make none) = some (.ok (none, Op.scan none)) := rfl

/-- C5: the claim says each `Project::next` call pulls exactly one row from
the child and either propagates exhaustion or returns the projected row.  On
the spec's own tree shape `Project(exprs, Filter(pred, Scan))`, the call
instead faults: `Filter`'s constructor discarded its child, so the pull from
the filter dereferences a null pointer, and `Project::next` ends in neither
of the claim's two outcomes. -/
theorem project_next_faults_on_filter_child :
    nextFuel 3 (Project.make [("n", Expression.var "name")]
        (some (Filter.make (some (.var "x")) (some (Scan.make none))))) =
      some (.error .nullDeref) := rfl

/-- C6: the claim says `EqualExpr::eval` returns a boolean `Value` comparing
the two child results by content.  In the source both child slots are typed
`unique_ptr<EqualExpr>`, so an equal-tree has no leaf case: for every
`EqualExpr` object and every row, evaluation reaches a null child pointer on
the leftmost spine and faults; it never returns any `Value`. -/
theorem equal_eval_never_returns_value (l r : EqualPtr) (row : Row) :
    Expression.eval (.equal l r) row = .error .nullDeref :=
  evalDeref_always_nullDeref (.node l r) row

/-- C8: the claim says `Equal(e, e).eval(r)` is the boolean true `Value`.
Evaluating the concrete instance `Equal(e, e)` with `e = EqualExpr(nullptr,
nullptr)` on the empty row dereferences a null child pointer instead; the
result is a fault, not the boolean true `Value`. -/
theorem equal_self_eval_is_not_true :
    Expression.eval (.equal (.node .null .null) (.node .null .null)) ⟨[]⟩ =
        .error .nullDeref ∧
      Expression.eval (.equal (.node .null .null) (.node .null .null)) ⟨[]⟩ ≠
        .ok (.bool true) := by
  refine ⟨rfl, ?_⟩
  intro h
  have h2 : (Except.error Err.nullDeref : Except Err Value) = .ok (.bool true) := h
  exact Except.noConfusion h2

/-- C9: `Scan::next` is `return {};` — it signals exhaustion on every call,
first call included, whatever operator was passed to the constructor; a
`Scan` never produces a row. -/
theorem scan_next_always_exhausted (f : Nat) (child : Option Op) :
    nextFuel (f + 1) (Scan.make child) = some (.ok (none, Op.scan child)) := rfl

/-- C7: once a `next` call on any operator returns the exhausted signal, any
subsequent `next` call that returns at all (for any fuel) returns the
exhausted signal again, with the operator state unchanged.  This holds in the
source because no operator mutates any member during `next`: `Scan::next` is
constant, and exhaustion in `Filter`/`Project` only propagates a child's
exhaustion. -/
theorem next_exhausted_stable :
    ∀ (f : Nat) (op op' : Op),
      nextFuel f op = some (.ok (none, op')) →
      ∀ (g : Nat) (r : Except Err (Option Row × Op)),
        nextFuel g op' = some r → r = .ok (none, op') := by
  intro f
  induction f with
  | zero =>
    intro op op' h
    simp [nextFuel] at h
  | succ f ih =>
    intro op op' h g r hg
    cases op with
    | scan c =>
      simp only [nextFuel, Option.some.injEq, Except.ok.injEq, Prod.mk.injEq,
        true_and] at h
      subst h
      cases g with
      | zero => simp [nextFuel] at hg
      | succ g2 =>
        simp only [nextFuel, Option.some.injEq] at hg
        exact hg.symm
    | filter p c =>
      cases c with
      | none => simp [nextFuel] at h
      | some ch =>
        rcases hch : nextFuel f ch with _ | (e | ⟨orow, ch'⟩)
        · simp [nextFuel, hch] at h
        · simp [nextFuel, hch] at h
        · cases orow with
          | none =>
            simp only [nextFuel, hch, Option.some.injEq, Except.ok.injEq,
              Prod.mk.injEq, true_and] at h
            subst h
            have hchild := ih ch ch' hch
            cases g with
            | zero => simp [nextFuel] at hg
            | succ g2 =>
              rcases hch2 : nextFuel g2 ch' with _ | r2
              · simp [nextFuel, hch2] at hg
              · have hr2 := hchild g2 r2 hch2
                subst hr2
                simp only [nextFuel, hch2, Option.some.injEq] at hg
                exact hg.symm
          | some row =>
            rcases hp : evalPredicate p row with _ | b
            · simp [nextFuel, hch, hp] at h
            · cases b with
              | true => simp [nextFuel, hch, hp] at h
              | false =>
                rw [show nextFuel (f + 1) (.filter p (some ch)) =
                    nextFuel f (.filter p (some ch')) by
                  simp [nextFuel, hch, hp]] at h
                exact ih (.filter p (some ch')) op' h g r hg
    | project ps c =>
      cases c with
      | none => simp [nextFuel] at h
      | some ch =>
        rcases hch : nextFuel f ch with _ | (e | ⟨orow, ch'⟩)
        · simp [nextFuel, hch] at h
        · simp [nextFuel, hch] at h
        · cases orow with
          | none =>
            simp only [nextFuel, hch, Option.some.injEq, Except.ok.injEq,
              Prod.mk.injEq, true_and] at h
            subst h
            have hchild := ih ch ch' hch
            cases g with
            | zero => simp [nextFuel] at hg
            | succ g2 =>
              rcases hch2 : nextFuel g2 ch' with _ | r2
              · simp [nextFuel, hch2] at hg
              · have hr2 := hchild g2 r2 hch2
                subst hr2
                simp only [nextFuel, hch2, Option.some.injEq] at hg
                exact hg.symm
          | some row =>
            rcases hpr : projectRow ps row with _ | newRow
            · simp [nextFuel, hch, hpr] at h
            · simp [nextFuel, hch, hpr] at h

/-- Witness for C7: a `Scan` signals exhaustion on its first call, and the
stability theorem applied at that concrete instance yields that a later call
on the resulting state returns the exhausted signal with unchanged state. -/
theorem next_exhausted_stable_witness :
    nextFuel 1 (Op.scan none) = some (.ok (none, Op.scan none)) ∧
    (Except.ok ((none : Option Row), Op.scan none) : Except Err (Option Row × Op)) =
      .ok (none, Op.scan none) :=
  ⟨rfl, next_exhausted_stable 1 (Op.scan none) (Op.scan none) rfl 3
      (.ok (none, Op.scan none)) rfl⟩

/-- C10: every non-null child pointer of an `EqualExpr` node points to an
object whose dynamic type is again `EqualExpr` — never `Variable` — because
both child slots are declared `unique_ptr<EqualExpr>`; consequently a node of
the form `Equal(Variable(n), x)` cannot exist. -/
theorem equal_children_are_equal_nodes
    (e : Expression) (c : EqualPtr) (ce : Expression)
    (_hmem : c ∈ e.equalChildren) (hderef : c.derefAsExpression = some ce) :
    ce.isEqualNode = true ∧ ce.isVariableNode = false := by
  cases c with
  | null => simp [EqualPtr.derefAsExpression] at hderef
  | node l r =>
    have hce : ce = .equal l r := by
      simpa [EqualPtr.derefAsExpression, eq_comm] using hderef
    subst hce
    exact ⟨rfl, rfl⟩

/-- Witness for C10: the left child of the node `Equal(Equal(null, null),
null)` is a non-null pointer to an `EqualExpr`, and the theorem applied there
shows the pointee is an `EqualExpr` node and not a `Variable`. -/
theorem equal_children_are_equal_nodes_witness :
    (EqualPtr.node .null .null ∈
        Expression.equalChildren (.equal (.node .null .null) .null)) ∧
      EqualPtr.derefAsExpression (.node .null .null) = some (.equal .null .null) ∧
      Expression.isEqualNode (.equal .null .null) = true ∧
      Expression.isVariableNode (.equal .null .null) = false :=
  ⟨by decide, rfl,
    equal_children_are_equal_nodes (.equal (.node .null .null) .null)
      (.node .null .null) (.equal .null .null) (by decide) rfl⟩
